import Mathlib

/-!
# Verification of the mycurrency resolution/orchestration core

Shallow embedding of the exchange-rate resolution core:
the synthetic (mock) adapter, the CurrencyBeacon remote adapter,
the provider failover orchestrator and the rate resolution service,
together with theorems settling the specification's claims.

Conventions of the embedding:
* Python `Decimal`/float values are modelled as exact rationals (`ℚ`);
  `round(x, 6)` (banker's rounding) is modelled by `round6`.
* Calendar dates are a `(year, month, day)` structure ordered
  lexicographically; `datetime.timedelta(days=1)` stepping is `nextDate`
  with Gregorian month lengths.
* The global `random` module is modelled by an explicit state `PyRand`
  together with two environment parameters: `tw seed n` is the value of the
  `n`-th uniform draw of the (fixed, deterministic) generator algorithm
  after `random.seed(seed)`, and `e i` is the `i`-th draw obtained after an
  entropy reseed `random.seed()` (values in `[0, 1]`, as `random.random`).
* Raising is modelled by `Except`; network responses, the Django ORM store
  and the process-local result cache are explicit parameters / state.
-/

/-! ## Calendar dates -/

/-- A calendar date, mirroring `datetime.date` fields. -/
structure Dt where
  year : Nat
  month : Nat
  day : Nat
deriving DecidableEq, Repr

/-- Strict order on dates (`datetime.date` comparison): lexicographic on
`(year, month, day)`. -/
def dtLT (a b : Dt) : Prop :=
  a.year < b.year ∨ (a.year = b.year ∧
    (a.month < b.month ∨ (a.month = b.month ∧ a.day < b.day)))

/-- Non-strict order on dates. -/
def dtLE (a b : Dt) : Prop := dtLT a b ∨ a = b

instance (a b : Dt) : Decidable (dtLT a b) := by
  unfold dtLT; infer_instance

instance (a b : Dt) : Decidable (dtLE a b) := by
  unfold dtLE; infer_instance

/-- The smaller of two dates. -/
def minDt (a b : Dt) : Dt := if dtLE a b then a else b

/-- Leap-year test of the Gregorian calendar. -/
def isLeap (y : Nat) : Bool := (y % 4 == 0 && y % 100 != 0) || y % 400 == 0

/-- Number of days in a month. -/
def daysInMonth (y m : Nat) : Nat :=
  if m = 2 then (if isLeap y then 29 else 28)
  else if m = 4 ∨ m = 6 ∨ m = 9 ∨ m = 11 then 30
  else 31

/-- The next calendar day (`date + timedelta(days=1)`). -/
def nextDate (x : Dt) : Dt :=
  if x.day < daysInMonth x.year x.month then ⟨x.year, x.month, x.day + 1⟩
  else if x.month < 12 then ⟨x.year, x.month + 1, 1⟩
  else ⟨x.year + 1, 1, 1⟩

/-- Crude strictly monotone size measure of a date, used only as recursion
fuel for date-range iteration. -/
def dtFuel (x : Dt) : Nat := x.year * 372 + x.month * 31 + x.day + 400

/-- `dateRangeAux fuel cur e` lists `cur, cur+1, …` while `cur ≤ e`. -/
def dateRangeAux (fuel : Nat) (cur e : Dt) : List Dt :=
  match fuel with
  | 0 => []
  | fuel + 1 => if dtLE cur e then cur :: dateRangeAux fuel (nextDate cur) e else []

/-- All days from `a` to `b` inclusive, in order — the sequence of values
taken by a `while current <= end` / `current += timedelta(days=1)` loop. -/
def dateRange (a b : Dt) : List Dt := dateRangeAux (dtFuel b) a b

/-! ## The `random` module -/

/-- State of the global `random` generator: either deterministically seeded
(`random.seed(k)`, with a count of draws consumed since), or reseeded from
OS entropy (`random.seed()`), holding the next index into the entropy
stream of the environment. -/
structure PyRand where
  seeded : Option (Nat × Nat)
  eidx : Nat
deriving DecidableEq, Repr

/-- `random.seed(k)`. -/
def randSeed (k : Nat) (s : PyRand) : PyRand := { seeded := some (k, 0), eidx := s.eidx }

/-- `random.seed()` — reseed from non-deterministic entropy. -/
def randSeedEntropy (s : PyRand) : PyRand := { seeded := none, eidx := s.eidx }

/-- `random.random()`: next draw in `[0, 1]`, from the deterministic stream
`tw` when seeded, from the environment's entropy stream `e` otherwise. -/
def random01 (tw : Nat → Nat → ℚ) (e : Nat → ℚ) (s : PyRand) : ℚ × PyRand :=
  match s.seeded with
  | some (k, n) => (tw k n, { s with seeded := some (k, n + 1) })
  | none => (e s.eidx, { s with eidx := s.eidx + 1 })

/-- `random.uniform(a, b) = a + (b - a) * random.random()`. -/
def randUniform (tw : Nat → Nat → ℚ) (e : Nat → ℚ) (a b : ℚ) (s : PyRand) : ℚ × PyRand :=
  let (v, s') := random01 tw e s
  (a + (b - a) * v, s')

/-! ## Rounding -/

/-- Round a rational to the nearest integer, ties to even
(`ROUND_HALF_EVEN`, the rounding used by `round` on `Decimal` and float). -/
def roundHalfEven (q : ℚ) : ℤ :=
  let f := ⌊q⌋
  let r := q - f
  if r < 1 / 2 then f
  else if 1 / 2 < r then f + 1
  else if f % 2 = 0 then f else f + 1

/-- `round(x, 6)`. -/
def round6 (q : ℚ) : ℚ := (roundHalfEven (q * 1000000) : ℚ) / 1000000

/-! ## Adapter contract types (`adapters/base.py`) -/

/-- `ExchangeRateResult` dataclass. -/
structure ExchangeRateResult where
  source_currency : String
  exchanged_currency : String
  valuation_date : Dt
  rate_value : ℚ
  provider_name : String
deriving DecidableEq, Repr

/-- Errors an adapter call can raise. `rateNotFound` and
`providerUnavailable` are the two `ExchangeRateAdapterError` kinds;
`valueError` models a plain Python `ValueError` (invalid range), which is
not an adapter error. -/
inductive AdapterError where
  | rateNotFound (msg : String)
  | providerUnavailable (msg : String)
  | valueError (msg : String)
deriving DecidableEq, Repr

/-- Whether an `Except` result is a success. -/
def isOkE {ε α : Type} : Except ε α → Bool
  | .ok _ => true
  | .error _ => false

/-- Python `str.upper()` for ASCII currency codes: uppercase every
character. -/
def pyUpper (s : String) : String := ⟨s.data.map Char.toUpper⟩

/-! ## Mock adapter (`adapters/mock.py`) -/

/-- Configuration of a `MockAdapter`: its base-rate table and volatility. -/
structure MockCfg where
  base_rates : List ((String × String) × ℚ)
  volatility : ℚ
deriving DecidableEq, Repr

/-- `MockAdapter.DEFAULT_BASE_RATES`. -/
def defaultBaseRates : List ((String × String) × ℚ) :=
  [(("EUR", "USD"), 1.08), (("EUR", "GBP"), 0.86), (("EUR", "CHF"), 0.94),
   (("USD", "EUR"), 0.93), (("USD", "GBP"), 0.79), (("USD", "CHF"), 0.87),
   (("GBP", "EUR"), 1.16), (("GBP", "USD"), 1.27), (("GBP", "CHF"), 1.10),
   (("CHF", "EUR"), 1.06), (("CHF", "USD"), 1.15), (("CHF", "GBP"), 0.91)]

/-- Default mock configuration (`volatility = 0.05`). -/
def defaultMockCfg : MockCfg := ⟨defaultBaseRates, 0.05⟩

/-- `self.base_rates.get(key)` — first binding of a pair key in the table. -/
def lookupBase (tbl : List ((String × String) × ℚ)) (k : String × String) : Option ℚ :=
  (tbl.find? (fun p => p.1 == k)).map (·.2)

/-- `valuation_date.year * 10000 + valuation_date.month * 100 +
valuation_date.day` — the integer the mock seeds the generator with. -/
def dateFactor (d : Dt) : Nat := d.year * 10000 + d.month * 100 + d.day

/-- `MockAdapter._get_base_rate`: direct table hit, else EUR-pivot
triangulation (guarded by Python truthiness: both legs present and
non-zero), else a random base rate `round(random.uniform(0.5, 2.0), 6)`
drawn from the current (unseeded) generator state. -/
def mockGetBaseRate (tbl : List ((String × String) × ℚ)) (tw : Nat → Nat → ℚ) (e : Nat → ℚ)
    (src tgt : String) (s : PyRand) : ℚ × PyRand :=
  let key := (pyUpper src, pyUpper tgt)
  match lookupBase tbl key with
  | some r => (r, s)
  | none =>
    let viaEur : Option ℚ :=
      if pyUpper src ≠ "EUR" then
        match lookupBase tbl (pyUpper src, "EUR"), lookupBase tbl ("EUR", pyUpper tgt) with
        | some a, some b => if a ≠ 0 ∧ b ≠ 0 then some (a * b) else none
        | _, _ => none
      else none
    match viaEur with
    | some r => (r, s)
    | none =>
      let (v, s') := randUniform tw e 0.5 2.0 s
      (round6 v, s')

/-- `MockAdapter._apply_variation`: seed with the date factor, draw a
variation in `[-volatility, volatility]`, apply it multiplicatively,
reseed from entropy, round to 6 digits. -/
def applyVariation (vol : ℚ) (tw : Nat → Nat → ℚ) (e : Nat → ℚ)
    (base : ℚ) (vd : Dt) (s : PyRand) : ℚ × PyRand :=
  let s1 := randSeed (dateFactor vd) s
  let (variation, s2) := randUniform tw e (-vol) vol s1
  let varied := base * (1 + variation)
  let s3 := randSeedEntropy s2
  (round6 varied, s3)

/-- `MockAdapter.get_exchange_rate`. Never raises; the `Except` codomain is
the adapter-contract type. -/
def mockGetExchangeRate (cfg : MockCfg) (tw : Nat → Nat → ℚ) (e : Nat → ℚ)
    (src tgt : String) (vd : Dt) (s : PyRand) :
    Except AdapterError (ExchangeRateResult × PyRand) :=
  if pyUpper src = pyUpper tgt then
    .ok (⟨pyUpper src, pyUpper tgt, vd, 1, "Mock Provider"⟩, s)
  else
    let (base, s1) := mockGetBaseRate cfg.base_rates tw e src tgt s
    let (rv, s2) := applyVariation cfg.volatility tw e base vd s1
    .ok (⟨pyUpper src, pyUpper tgt, vd, rv, "Mock Provider"⟩, s2)

/-- Loop of `MockAdapter.get_exchange_rates_for_date`: one quote per listed
target whose uppercased code differs from the source's. -/
def mockRatesLoop (cfg : MockCfg) (tw : Nat → Nat → ℚ) (e : Nat → ℚ)
    (src : String) (vd : Dt) :
    List String → PyRand → Except AdapterError (List ExchangeRateResult × PyRand)
  | [], s => .ok ([], s)
  | t :: rest, s =>
    if pyUpper t ≠ pyUpper src then
      match mockGetExchangeRate cfg tw e src t vd s with
      | .error err => .error err
      | .ok (q, s') =>
        match mockRatesLoop cfg tw e src vd rest s' with
        | .error err => .error err
        | .ok (qs, s'') => .ok (q :: qs, s'')
    else mockRatesLoop cfg tw e src vd rest s

/-- `MockAdapter.get_exchange_rates_for_date` (default target list
`['EUR', 'USD', 'GBP', 'CHF']`). -/
def mockGetExchangeRatesForDate (cfg : MockCfg) (tw : Nat → Nat → ℚ) (e : Nat → ℚ)
    (src : String) (vd : Dt) (targets : Option (List String)) (s : PyRand) :
    Except AdapterError (List ExchangeRateResult × PyRand) :=
  let ts := targets.getD ["EUR", "USD", "GBP", "CHF"]
  mockRatesLoop cfg tw e src vd ts s

/-- Loop of `MockAdapter.get_historical_rates`: one quote per day. -/
def mockHistLoop (cfg : MockCfg) (tw : Nat → Nat → ℚ) (e : Nat → ℚ)
    (src tgt : String) :
    List Dt → PyRand → Except AdapterError (List ExchangeRateResult × PyRand)
  | [], s => .ok ([], s)
  | d :: rest, s =>
    match mockGetExchangeRate cfg tw e src tgt d s with
    | .error err => .error err
    | .ok (q, s') =>
      match mockHistLoop cfg tw e src tgt rest s' with
      | .error err => .error err
      | .ok (qs, s'') => .ok (q :: qs, s'')

/-- `MockAdapter.get_historical_rates`: iterates every day from
`start_date` to `end_date` inclusive; performs no range validation. -/
def mockGetHistoricalRates (cfg : MockCfg) (tw : Nat → Nat → ℚ) (e : Nat → ℚ)
    (src tgt : String) (start e_ : Dt) (s : PyRand) :
    Except AdapterError (List ExchangeRateResult × PyRand) :=
  mockHistLoop cfg tw e src tgt (dateRange start e_) s

/-! ## CurrencyBeacon adapter (`adapters/currencybeacon.py`)

The HTTP layer is abstracted to its observable interface: an endpoint
selector and, per request, either a rates mapping (the merged
`rates` / `response.rates` shape) or a `ProviderUnavailableError` message.
The process-local result cache for a fixed currency pair is a function
`Dt → Option ExchangeRateResult` (keyed by the date component of
`_get_cache_key`). -/

/-- Which upstream endpoint a single-date lookup hits. -/
inductive Endpoint where
  | latest
  | historical (d : Dt)
deriving DecidableEq, Repr

/-- The environment of a CurrencyBeacon call: the current day and the
upstream service. `api ep base` is the rates mapping returned by the
request, or a `ProviderUnavailableError` message. -/
structure CbEnv where
  today : Dt
  api : Endpoint → String → Except String (List (String × ℚ))

/-- Process-local result cache for one currency pair. -/
def CbCache : Type := Dt → Option ExchangeRateResult

/-- `rates[target]` lookup in a rates mapping. -/
def lookupRates (rates : List (String × ℚ)) (t : String) : Option ℚ :=
  (rates.find? (fun p => p.1 == t)).map (·.2)

/-- Date-resolution rule of `CurrencyBeaconAdapter.get_exchange_rate`
(lines 149–166): clamp a strictly future date to today; a today-or-later
date is served from `/latest` (actual date = today), a strictly past date
from `/historical` with that exact date. Returns the endpoint used and the
`actual_date` recorded on the result. -/
def cbDateRoute (today vd : Dt) : Endpoint × Dt :=
  let vd' := if dtLT today vd then today else vd
  if dtLE today vd' then (.latest, today) else (.historical vd', vd')

/-- `CurrencyBeaconAdapter.get_exchange_rate`. Note the cache key is the
*requested* date (computed before the future-date clamp), while the stored
result carries `actual_date`. Returns the result together with the updated
cache. -/
def cbGetExchangeRate (env : CbEnv) (cache : CbCache) (src tgt : String) (vd : Dt) :
    Except AdapterError (ExchangeRateResult × CbCache) :=
  let source := pyUpper src
  let target := pyUpper tgt
  if source = target then
    .ok (⟨source, target, vd, 1, "CurrencyBeacon"⟩, cache)
  else
    match cache vd with
    | some r => .ok (r, cache)
    | none =>
      let (ep, actual) := cbDateRoute env.today vd
      match env.api ep source with
      | .error m => .error (.providerUnavailable m)
      | .ok rates =>
        match lookupRates rates target with
        | none => .error (.rateNotFound ("Rate not found for " ++ source ++ " -> " ++ target))
        | some rv =>
          let result : ExchangeRateResult := ⟨source, target, actual, rv, "CurrencyBeacon"⟩
          .ok (result, fun d => if d = vd then some result else cache d)

/-- `CurrencyBeaconAdapter.get_exchange_rates_for_date`. The body computes
the clamped date and issues the request (lines 206–224), but then evaluates
`if not rates:` (line 226) where the local variable `rates` has never been
assigned; the resulting `UnboundLocalError` — like a failed request — is
caught by the blanket `except Exception` handler (line 252) and re-raised
as `ProviderUnavailableError('Failed to get rates: ...')`. -/
def cbGetExchangeRatesForDate (env : CbEnv) (src : String) (vd : Dt)
    (targets : Option (List String)) : Except AdapterError (List ExchangeRateResult) :=
  let source := pyUpper src
  let (ep, _) := cbDateRoute env.today vd
  match env.api ep source with
  | .error m => .error (.providerUnavailable ("Failed to get rates: " ++ m))
  | .ok _ =>
    .error (.providerUnavailable
      "Failed to get rates: local variable 'rates' referenced before assignment")

/-- Sort quotes ascending by valuation date (Python `sorted` with a
date key; stable merge sort). -/
def sortByDate (l : List ExchangeRateResult) : List ExchangeRateResult :=
  l.mergeSort (fun a b => decide (dtLE a.valuation_date b.valuation_date))

/-- Loop of `CurrencyBeaconAdapter._fallback_historical_rates` over the
days to fetch: cache hit appends the cached quote and resets the
consecutive-error counter; a fresh fetch appends its quote and resets the
counter; `RateNotFoundError` skips the day and resets the counter; any
other failure increments it, and once `counter + 1` reaches 5 the loop
aborts, keeping what was collected. Returns the collected quotes (in fetch
order) and the final cache. -/
def cbFallbackLoop (env : CbEnv) (src tgt : String) :
    List Dt → CbCache → Nat → List ExchangeRateResult × CbCache
  | [], cache, _ => ([], cache)
  | d :: rest, cache, errCount =>
    match cache d with
    | some r =>
      let (qs, c') := cbFallbackLoop env src tgt rest cache 0
      (r :: qs, c')
    | none =>
      match cbGetExchangeRate env cache src tgt d with
      | .ok (r, cache') =>
        let (qs, c') := cbFallbackLoop env src tgt rest cache' 0
        (r :: qs, c')
      | .error (.rateNotFound _) => cbFallbackLoop env src tgt rest cache 0
      | .error _ =>
        if errCount + 1 ≥ 5 then ([], cache)
        else cbFallbackLoop env src tgt rest cache (errCount + 1)

/-- `CurrencyBeaconAdapter._fallback_historical_rates`: per-day fetch over
`start .. min(end, today)`, results sorted ascending by date. -/
def cbFallbackHistoricalRates (env : CbEnv) (cache : CbCache) (src tgt : String)
    (start e_ : Dt) : List ExchangeRateResult × CbCache :=
  let days := dateRange start (minDt e_ env.today)
  let (res, cache') := cbFallbackLoop env src tgt days cache 0
  (sortByDate res, cache')

/-- Shape of the `/timeseries` response's rates container. A `dict` entry
is modelled post-parsing: its date (`None` when `date.fromisoformat`
fails) and its extracted rate (`None` when the value has an unexpected
shape); failed entries are skipped, matching the `continue` branches. -/
inductive TsRates where
  | asList
  | asDict (entries : List (Option Dt × Option ℚ))
  | asOther

/-- Insert a quote into the pair cache under its valuation date. -/
def cacheInsert (cache : CbCache) (r : ExchangeRateResult) : CbCache :=
  fun d => if d = r.valuation_date then some r else cache d

/-- `CurrencyBeaconAdapter.get_historical_rates`. `ts` is the outcome of
the initial `/timeseries` request (`.error` covers both
`ProviderUnavailableError` and any other exception, all of which route to
the fallback). -/
def cbGetHistoricalRates (env : CbEnv) (cache : CbCache) (src tgt : String)
    (start e_ : Dt) (ts : Except String TsRates) :
    Except AdapterError (List ExchangeRateResult × CbCache) :=
  let source := pyUpper src
  let target := pyUpper tgt
  if dtLT e_ start then .error (.valueError "start_date must be before end_date")
  else if dtLT env.today start then .ok ([], cache)
  else
    let e2 := minDt e_ env.today
    match ts with
    | .error _ => .ok (cbFallbackHistoricalRates env cache source target start e2)
    | .ok .asList => .ok (cbFallbackHistoricalRates env cache source target start e2)
    | .ok .asOther => .ok (cbFallbackHistoricalRates env cache source target start e2)
    | .ok (.asDict entries) =>
      let parsed := entries.filterMap (fun en =>
        match en with
        | (some d, some v) => some (⟨source, target, d, v, "CurrencyBeacon"⟩ : ExchangeRateResult)
        | _ => none)
      if parsed.isEmpty then .ok (cbFallbackHistoricalRates env cache source target start e2)
      else .ok (sortByDate parsed, parsed.foldl cacheInsert cache)

/-! ## Provider failover orchestrator (`services/provider_manager.py`) -/

/-- A row of the `Provider` model consumed by the orchestrator. -/
structure Provider where
  name : String
  adapter_path : String
  priority : Nat
  is_active : Bool
deriving DecidableEq, Repr

/-- The `order_by('priority', 'name')` comparison: ascending priority,
then ascending name. -/
def provLE (a b : Provider) : Bool :=
  decide (a.priority < b.priority) ||
    (decide (a.priority = b.priority) && decide (a.name ≤ b.name))

/-- `ProviderManager.get_active_providers`: active providers ordered by
`(priority, name)`. -/
def getActiveProviders (ps : List Provider) : List Provider :=
  (ps.filter (·.is_active)).mergeSort provLE

/-- Failover loop of `ProviderManager.execute_with_failover`, with the
running `last_error`. `op p` is `operation(adapter_of p, ...)`. Returns the
final outcome together with the trace of providers the operation was
invoked on, in invocation order. -/
def failoverLoop {α : Type} (op : Provider → Except String α) :
    List Provider → Option String → Except String α × List Provider
  | [], last =>
    (.error (match last with
      | some m => "All providers failed. Last error: " ++ m
      | none => "All providers failed"), [])
  | p :: rest, last =>
    match op p with
    | .ok r => (.ok r, [p])
    | .error m =>
      let (res, tr) := failoverLoop op rest (some m)
      (res, p :: tr)

/-- `ProviderManager.execute_with_failover`: raises immediately when no
provider is active, otherwise tries each active provider once, in order. -/
def executeWithFailover {α : Type} (op : Provider → Except String α) (ps : List Provider) :
    Except String α × List Provider :=
  let act := getActiveProviders ps
  if act.isEmpty then (.error "No active exchange rate providers configured", [])
  else failoverLoop op act none

/-! ## Rate resolution service (`services/exchange_rate_service.py`)

The `CurrencyExchangeRate` table is a list of records; `update_or_create`
keyed on `(source_currency, exchanged_currency, valuation_date)` models the
Django upsert backed by the model's `unique_together` constraint. -/

/-- A persisted `CurrencyExchangeRate` row. -/
structure RateRec where
  src : String
  tgt : String
  vd : Dt
  rate : ℚ
deriving DecidableEq, Repr

/-- The unique key of a stored rate. -/
def rateKey (r : RateRec) : String × String × Dt := (r.src, r.tgt, r.vd)

/-- `CurrencyExchangeRate.objects.get(...)` on the unique key
(`ExchangeRateService._get_rate_from_db`). -/
def dbLookup (db : List RateRec) (s t : String) (d : Dt) : Option RateRec :=
  db.find? (fun r => rateKey r == (s, t, d))

/-- `CurrencyExchangeRate.objects.update_or_create(...)`: overwrite the
rate of the record with the given key if one exists, otherwise append a
new record. -/
def updateOrCreate (db : List RateRec) (s t : String) (d : Dt) (v : ℚ) : List RateRec :=
  if db.any (fun r => rateKey r == (s, t, d)) then
    db.map (fun r => if rateKey r == (s, t, d) then { r with rate := v } else r)
  else db ++ [⟨s, t, d, v⟩]

/-- Number of stored records with the given key. -/
def countKey (db : List RateRec) (k : String × String × Dt) : Nat :=
  (db.filter (fun r => rateKey r == k)).length

/-- The database invariant backed by `unique_together`: no two records
share a `(source, target, date)` key. -/
def NodupKeys (db : List RateRec) : Prop := (db.map rateKey).Nodup

/-- Errors of a resolution-service call. -/
inductive SvcError where
  | adapter (e : AdapterError)
  | currencyNotFound (code : String)
deriving DecidableEq, Repr

/-- `ExchangeRateService._save_rate_to_db`: look up both currencies
(`Currency.objects.get` raises when a code is unknown), then upsert. -/
def saveRateToDb (currencies : List String) (db : List RateRec)
    (res : ExchangeRateResult) : Except SvcError (RateRec × List RateRec) :=
  if res.source_currency ∈ currencies then
    if res.exchanged_currency ∈ currencies then
      .ok (⟨res.source_currency, res.exchanged_currency, res.valuation_date, res.rate_value⟩,
        updateOrCreate db res.source_currency res.exchanged_currency res.valuation_date
          res.rate_value)
    else .error (.currencyNotFound res.exchanged_currency)
  else .error (.currencyNotFound res.source_currency)

/-- `ExchangeRateService.get_exchange_rate_data`: uppercase both codes,
return the stored record on a database hit, otherwise fetch from the
provider layer (`fetch` abstracts `_fetch_from_provider`) and persist the
result. Returns the resolved record and the resulting database. -/
def getExchangeRateData (currencies : List String) (db : List RateRec)
    (fetch : String → String → Dt → Except AdapterError ExchangeRateResult)
    (src tgt : String) (d : Dt) : Except SvcError (RateRec × List RateRec) :=
  let s := pyUpper src
  let t := pyUpper tgt
  match dbLookup db s t d with
  | some r => .ok (r, db)
  | none =>
    match fetch s t d with
    | .error err => .error (.adapter err)
    | .ok res => saveRateToDb currencies db res

/-- Body of the `_bulk_save_rates` loop: skip a quote whose currency codes
are unknown, otherwise upsert it. -/
def bulkSaveStep (currencies : List String) (db : List RateRec)
    (res : ExchangeRateResult) : List RateRec :=
  if res.source_currency ∈ currencies ∧ res.exchanged_currency ∈ currencies then
    updateOrCreate db res.source_currency res.exchanged_currency res.valuation_date
      res.rate_value
  else db

/-- `ExchangeRateService._bulk_save_rates` (database effect). -/
def bulkSaveRates (currencies : List String) (db : List RateRec)
    (results : List ExchangeRateResult) : List RateRec :=
  results.foldl (bulkSaveStep currencies) db


/-! ## Predicates used by the claims -/

/-- A currency pair whose base rate is determined by the configured table:
either a direct entry, or (source not EUR) both EUR-pivot legs present and
non-zero. This is exactly the condition under which
`MockAdapter._get_base_rate` performs no random draw. -/
def BaseResolvable (tbl : List ((String × String) × ℚ)) (src tgt : String) : Prop :=
  (lookupBase tbl (pyUpper src, pyUpper tgt)).isSome = true ∨
    (pyUpper src ≠ "EUR" ∧ ∃ a b, lookupBase tbl (pyUpper src, "EUR") = some a ∧
      lookupBase tbl ("EUR", pyUpper tgt) = some b ∧ a ≠ 0 ∧ b ≠ 0)

/-- The rate value produced by a mock lookup (`none` on error — the mock
never errors). -/
def mockRateOf (cfg : MockCfg) (tw : Nat → Nat → ℚ) (e : Nat → ℚ)
    (src tgt : String) (vd : Dt) (s : PyRand) : Option ℚ :=
  (mockGetExchangeRate cfg tw e src tgt vd s).toOption.map (fun p => p.1.rate_value)

/-- The quote produced by a mock lookup, state component dropped. -/
def mockQuoteOf (cfg : MockCfg) (tw : Nat → Nat → ℚ) (e : Nat → ℚ)
    (src tgt : String) (vd : Dt) (s : PyRand) : Option ExchangeRateResult :=
  (mockGetExchangeRate cfg tw e src tgt vd s).toOption.map (fun p => p.1)

/-- The valuation dates of a list of quotes, in order. -/
def ratesDates (l : List ExchangeRateResult) : List Dt := l.map (·.valuation_date)

/-- The dates of a historical-rates outcome (`none` on error). -/
def histDatesOf (r : Except AdapterError (List ExchangeRateResult × CbCache)) :
    Option (List Dt) :=
  r.toOption.map (fun p => ratesDates p.1)

/-- A well-keyed pair cache: every entry is stored under its own valuation
date. Entries written by `cache.set` for a non-future request satisfy
this; a request for a future date is stored under the *requested* date
while carrying today's date, violating it. -/
def CacheConsistent (cache : CbCache) : Prop :=
  ∀ d r, cache d = some r → r.valuation_date = d

/-- Every stored identity-pair record carries rate exactly 1. -/
def IdentityOne (db : List RateRec) : Prop :=
  ∀ r ∈ db, r.src = r.tgt → r.rate = 1

/-! ## Order and range lemmas -/

theorem dtLT_irrefl (a : Dt) : ¬ dtLT a a := by
  simp [dtLT]

theorem dtLE_refl (a : Dt) : dtLE a a := Or.inr rfl

theorem dtLT_trans {a b c : Dt} (h1 : dtLT a b) (h2 : dtLT b c) : dtLT a c := by
  obtain ⟨a1, a2, a3⟩ := a
  obtain ⟨b1, b2, b3⟩ := b
  obtain ⟨c1, c2, c3⟩ := c
  simp only [dtLT] at *
  omega

theorem dtLT_asymm {a b : Dt} (h : dtLT a b) : ¬ dtLT b a := by
  obtain ⟨a1, a2, a3⟩ := a
  obtain ⟨b1, b2, b3⟩ := b
  simp only [dtLT] at *
  omega

theorem dtLE_trans {a b c : Dt} (h1 : dtLE a b) (h2 : dtLE b c) : dtLE a c := by
  rcases h1 with h1 | rfl
  · rcases h2 with h2 | rfl
    · exact Or.inl (dtLT_trans h1 h2)
    · exact Or.inl h1
  · exact h2

theorem dtLE_total (a b : Dt) : dtLE a b ∨ dtLE b a := by
  obtain ⟨a1, a2, a3⟩ := a
  obtain ⟨b1, b2, b3⟩ := b
  simp only [dtLE, dtLT, Dt.mk.injEq]
  omega

theorem dtLE_antisymm {a b : Dt} (h1 : dtLE a b) (h2 : dtLE b a) : a = b := by
  rcases h1 with h1 | rfl
  · rcases h2 with h2 | rfl
    · exact absurd h2 (dtLT_asymm h1)
    · rfl
  · rfl

theorem dtLT_of_dtLE_of_dtLT {a b c : Dt} (h1 : dtLE a b) (h2 : dtLT b c) : dtLT a c := by
  rcases h1 with h1 | rfl
  · exact dtLT_trans h1 h2
  · exact h2

theorem dtLT_of_dtLT_of_dtLE {a b c : Dt} (h1 : dtLT a b) (h2 : dtLE b c) : dtLT a c := by
  rcases h2 with h2 | rfl
  · exact dtLT_trans h1 h2
  · exact h1

theorem not_dtLT_of_dtLE {a b : Dt} (h : dtLE a b) : ¬ dtLT b a := by
  rcases h with h | rfl
  · exact dtLT_asymm h
  · exact dtLT_irrefl a

theorem dtLE_of_not_dtLT {a b : Dt} (h : ¬ dtLT a b) : dtLE b a := by
  rcases dtLE_total b a with h' | h'
  · exact h'
  · rcases h' with h' | rfl
    · exact absurd h' h
    · exact dtLE_refl a

theorem dtLT_nextDate (x : Dt) : dtLT x (nextDate x) := by
  unfold nextDate
  split
  · exact Or.inr ⟨rfl, Or.inr ⟨rfl, Nat.lt_succ_self _⟩⟩
  · split
    · exact Or.inr ⟨rfl, Or.inl (Nat.lt_succ_self _)⟩
    · exact Or.inl (Nat.lt_succ_self _)

theorem mem_dateRangeAux_le {x : Dt} :
    ∀ {fuel : Nat} {c e : Dt}, x ∈ dateRangeAux fuel c e → dtLE x e := by
  intro fuel
  induction fuel with
  | zero => intro c e h; simp [dateRangeAux] at h
  | succ n ih =>
    intro c e h
    unfold dateRangeAux at h
    split at h
    · rcases List.mem_cons.mp h with rfl | h
      · assumption
      · exact ih h
    · simp at h

theorem mem_dateRangeAux_ge {x : Dt} :
    ∀ {fuel : Nat} {c e : Dt}, x ∈ dateRangeAux fuel c e → dtLE c x := by
  intro fuel
  induction fuel with
  | zero => intro c e h; simp [dateRangeAux] at h
  | succ n ih =>
    intro c e h
    unfold dateRangeAux at h
    split at h
    · rcases List.mem_cons.mp h with rfl | h
      · exact dtLE_refl x
      · exact dtLE_trans (Or.inl (dtLT_nextDate c)) (ih h)
    · simp at h

theorem dateRangeAux_sorted :
    ∀ (fuel : Nat) (c e : Dt), (dateRangeAux fuel c e).Pairwise dtLT := by
  intro fuel
  induction fuel with
  | zero => intro c e; simp [dateRangeAux]
  | succ n ih =>
    intro c e
    unfold dateRangeAux
    split
    · refine List.pairwise_cons.mpr ⟨?_, ih _ e⟩
      intro x hx
      exact dtLT_of_dtLT_of_dtLE (dtLT_nextDate c) (mem_dateRangeAux_ge hx)
    · simp

theorem dateRange_sorted (a b : Dt) : (dateRange a b).Pairwise dtLT :=
  dateRangeAux_sorted _ a b

theorem mem_dateRange_le {x a b : Dt} (h : x ∈ dateRange a b) : dtLE x b :=
  mem_dateRangeAux_le h

theorem dateRange_nodup (a b : Dt) : (dateRange a b).Nodup :=
  (dateRange_sorted a b).imp (fun h => by
    intro he
    exact dtLT_irrefl _ (he ▸ h))

theorem not_dtLE_of_dtLT {a b : Dt} (h : dtLT a b) : ¬ dtLE b a := by
  rintro (h' | rfl)
  · exact dtLT_asymm h h'
  · exact dtLT_irrefl _ h

theorem sortByDate_sorted (l : List ExchangeRateResult) :
    (sortByDate l).Pairwise (fun a b => dtLE a.valuation_date b.valuation_date) := by
  unfold sortByDate
  refine (List.sorted_mergeSort ?_ ?_ l).imp ?_
  · intro a b c hab hbc
    exact decide_eq_true (dtLE_trans (of_decide_eq_true hab) (of_decide_eq_true hbc))
  · intro a b
    rcases dtLE_total a.valuation_date b.valuation_date with h | h <;> simp [h]
  · intro a b hab
    exact of_decide_eq_true hab

theorem sortByDate_perm (l : List ExchangeRateResult) : (sortByDate l).Perm l :=
  List.mergeSort_perm l _

theorem provLE_trans {a b c : Provider} (h1 : provLE a b = true) (h2 : provLE b c = true) :
    provLE a c = true := by
  simp only [provLE, Bool.or_eq_true, Bool.and_eq_true, decide_eq_true_eq] at *
  rcases h1 with h1 | ⟨h1, h1'⟩ <;> rcases h2 with h2 | ⟨h2, h2'⟩
  · exact Or.inl (Nat.lt_trans h1 h2)
  · exact Or.inl (h2 ▸ h1)
  · exact Or.inl (h1 ▸ h2)
  · exact Or.inr ⟨h1.trans h2, le_trans h1' h2'⟩

theorem provLE_total (a b : Provider) : provLE a b || provLE b a := by
  simp only [provLE, Bool.or_eq_true, Bool.and_eq_true, decide_eq_true_eq]
  rcases Nat.lt_trichotomy a.priority b.priority with h | h | h
  · exact Or.inl (Or.inl h)
  · rcases le_total a.name b.name with hn | hn
    · exact Or.inl (Or.inr ⟨h, hn⟩)
    · exact Or.inr (Or.inr ⟨h.symm, hn⟩)
  · exact Or.inr (Or.inl h)

/-- The mock adapter's single lookup always succeeds, and the returned
quote carries the requested valuation date and uppercased codes. -/
theorem mockGER_ok (cfg : MockCfg) (tw : Nat → Nat → ℚ) (e : Nat → ℚ)
    (src tgt : String) (vd : Dt) (s : PyRand) :
    ∃ q s', mockGetExchangeRate cfg tw e src tgt vd s = .ok (q, s') ∧
      q.valuation_date = vd ∧ q.source_currency = pyUpper src ∧
      q.exchanged_currency = pyUpper tgt := by
  unfold mockGetExchangeRate
  split
  · exact ⟨_, _, rfl, rfl, rfl, rfl⟩
  · exact ⟨_, _, rfl, rfl, rfl, rfl⟩

/-! ## Claims -/

/-- C10: the synthetic generator's `get_exchange_rate` is total at the
contract boundary: for every pair of currency-code strings, every date and
every generator state it returns a quote and never raises — in particular
it never signals `RateNotFoundError` or `ProviderUnavailableError`. -/
theorem mock_get_exchange_rate_total (cfg : MockCfg) (tw : Nat → Nat → ℚ) (e : Nat → ℚ)
    (src tgt : String) (vd : Dt) (s : PyRand) :
    ∃ q s', mockGetExchangeRate cfg tw e src tgt vd s = .ok (q, s') := by
  obtain ⟨q, s', h, -⟩ := mockGER_ok cfg tw e src tgt vd s
  exact ⟨q, s', h⟩

/-- C5: for a single-date CurrencyBeacon lookup, a strictly future
requested date is clamped to today and served from `/latest` (never
forwarded to `/historical`); a today-or-later date is served from
`/latest`; only a strictly past date is served from `/historical` with
that exact date. `cbDateRoute` is the date-resolution rule used by
`cbGetExchangeRate`. -/
theorem cb_single_date_routing (today vd : Dt) :
    (dtLT today vd → cbDateRoute today vd = (.latest, today)) ∧
    (dtLE today vd → cbDateRoute today vd = (.latest, today)) ∧
    (dtLT vd today → cbDateRoute today vd = (.historical vd, vd)) := by
  refine ⟨?_, ?_, ?_⟩ <;> intro h
  · simp [cbDateRoute, h, dtLE_refl]
  · by_cases hl : dtLT today vd
    · simp [cbDateRoute, hl, dtLE_refl]
    · simp [cbDateRoute, hl, h]
  · have h1 : ¬ dtLT today vd := dtLT_asymm h
    have h2 : ¬ dtLE today vd := not_dtLE_of_dtLT h
    simp [cbDateRoute, h1, h2]

/-- Witness for C5 at concrete dates: 2024-01-12 requested on 2024-01-10
is clamped and served from `/latest`; 2024-01-10 itself is served from
`/latest`; 2024-01-05 is served from `/historical` with that date. -/
theorem cb_single_date_routing_witness :
    cbDateRoute ⟨2024, 1, 10⟩ ⟨2024, 1, 12⟩ = (.latest, ⟨2024, 1, 10⟩) ∧
    cbDateRoute ⟨2024, 1, 10⟩ ⟨2024, 1, 10⟩ = (.latest, ⟨2024, 1, 10⟩) ∧
    cbDateRoute ⟨2024, 1, 10⟩ ⟨2024, 1, 5⟩ = (.historical ⟨2024, 1, 5⟩, ⟨2024, 1, 5⟩) :=
  ⟨(cb_single_date_routing ⟨2024, 1, 10⟩ ⟨2024, 1, 12⟩).1 (by decide),
   (cb_single_date_routing ⟨2024, 1, 10⟩ ⟨2024, 1, 10⟩).2.1 (by decide),
   (cb_single_date_routing ⟨2024, 1, 10⟩ ⟨2024, 1, 5⟩).2.2 (by decide)⟩

/-- C1 (amended): for a fixed pair, valuation date, volatility and
base-rate table, repeated `get_exchange_rate` calls — across separate
instances, arbitrary generator states `s`, `s'` and arbitrary entropy
environments `e`, `e'`, i.e. in any call order — return the same quote
(in particular a bit-identical rate value), *provided* the pair is an
identity pair or its base rate is resolvable from the table (directly or
by EUR-pivot). For such pairs the only draw is taken right after
`random.seed(date_factor)`, so it depends only on the fixed generator
algorithm `tw` and the date. -/
theorem mock_rate_reproducible_for_resolvable_pairs (cfg : MockCfg) (tw : Nat → Nat → ℚ)
    (e e' : Nat → ℚ) (src tgt : String) (vd : Dt) (s s' : PyRand)
    (h : pyUpper src = pyUpper tgt ∨ BaseResolvable cfg.base_rates src tgt) :
    (mockQuoteOf cfg tw e src tgt vd s).isSome = true ∧
    mockQuoteOf cfg tw e src tgt vd s = mockQuoteOf cfg tw e' src tgt vd s' := by
  constructor
  · obtain ⟨q, s1, hq, -⟩ := mockGER_ok cfg tw e src tgt vd s
    simp [mockQuoteOf, hq, Except.toOption]
  · by_cases hid : pyUpper src = pyUpper tgt
    · simp [mockQuoteOf, mockGetExchangeRate, hid, Except.toOption]
    · rcases h with h | hres
      · exact absurd h hid
      · obtain ⟨r, hr⟩ : ∃ r, ∀ (e0 : Nat → ℚ) (s0 : PyRand),
            mockGetBaseRate cfg.base_rates tw e0 src tgt s0 = (r, s0) := by
          rcases hdir : lookupBase cfg.base_rates (pyUpper src, pyUpper tgt) with _ | r
          · rcases hres with hsome | ⟨hne, a, b, ha, hb, ha0, hb0⟩
            · rw [hdir] at hsome; simp at hsome
            · refine ⟨a * b, fun e0 s0 => ?_⟩
              simp [mockGetBaseRate, hdir, hne, ha, hb, ha0, hb0]
          · exact ⟨r, fun e0 s0 => by simp [mockGetBaseRate, hdir]⟩
        simp [mockQuoteOf, mockGetExchangeRate, hid, hr, applyVariation, randUniform,
          random01, randSeed, randSeedEntropy, Except.toOption]

/-- Counterexample to C1 as stated: for a pair absent from the base-rate
table (here the empty table, pair AAA→BBB), `_get_base_rate` draws from
the *unseeded* generator, so two calls made under different entropy
conditions — as after any prior call, since every call ends with
`random.seed()` — return different rate values. -/
theorem mock_rate_not_reproducible_for_unlisted_pair :
    mockRateOf ⟨[], 0.05⟩ (fun _ _ => 0) (fun _ => 0) "AAA" "BBB" ⟨2024, 1, 15⟩ ⟨none, 0⟩ ≠
    mockRateOf ⟨[], 0.05⟩ (fun _ _ => 0) (fun _ => 1 / 2) "AAA" "BBB" ⟨2024, 1, 15⟩
      ⟨none, 0⟩ := by
  simp only [mockRateOf, mockGetExchangeRate, mockGetBaseRate, lookupBase, applyVariation,
    randUniform, random01, randSeed, randSeedEntropy, round6, roundHalfEven, dateFactor]
  norm_num
  rw [if_neg (by decide : ¬ pyUpper "AAA" = pyUpper "BBB")]
  rw [if_neg (by decide : ¬ pyUpper "AAA" = pyUpper "BBB")]
  simp [Except.toOption]
  norm_num

/-- Witness for C1: the default table pair EUR→USD (a directly listed
pair) on 2024-01-15 yields the same quote from two different states and
entropy streams. -/
theorem mock_rate_reproducible_witness :
    (pyUpper "EUR" = pyUpper "USD" ∨ BaseResolvable defaultMockCfg.base_rates "EUR" "USD") ∧
    (mockQuoteOf defaultMockCfg (fun _ _ => 0) (fun _ => 0) "EUR" "USD" ⟨2024, 1, 15⟩
        ⟨none, 0⟩).isSome = true ∧
    mockQuoteOf defaultMockCfg (fun _ _ => 0) (fun _ => 0) "EUR" "USD" ⟨2024, 1, 15⟩
        ⟨none, 0⟩ =
      mockQuoteOf defaultMockCfg (fun _ _ => 0) (fun _ => 1 / 2) "EUR" "USD" ⟨2024, 1, 15⟩
        ⟨none, 5⟩ :=
  ⟨Or.inr (Or.inl (by decide)),
   mock_rate_reproducible_for_resolvable_pairs defaultMockCfg (fun _ _ => 0) (fun _ => 0)
     (fun _ => 1 / 2) "EUR" "USD" ⟨2024, 1, 15⟩ ⟨none, 0⟩ ⟨none, 5⟩
     (Or.inr (Or.inl (by decide)))⟩

/-- Unfolding of a successful keyed database lookup. -/
theorem dbLookup_some {db : List RateRec} {s t : String} {d : Dt} {r : RateRec}
    (h : dbLookup db s t d = some r) :
    r ∈ db ∧ r.src = s ∧ r.tgt = t ∧ r.vd = d := by
  refine ⟨List.mem_of_find?_eq_some h, ?_⟩
  have hp := List.find?_some h
  rw [beq_iff_eq, rateKey, Prod.mk.injEq, Prod.mk.injEq] at hp
  exact ⟨hp.1, hp.2.1, hp.2.2⟩

/-- `update_or_create` preserves the identity-pairs-have-rate-1 invariant
whenever the written value satisfies it. -/
theorem identityOne_updateOrCreate {db : List RateRec} {a b : String} {dd : Dt} {v : ℚ}
    (hdb : IdentityOne db) (hv : a = b → v = 1) :
    IdentityOne (updateOrCreate db a b dd v) := by
  intro r hmem hrid
  unfold updateOrCreate at hmem
  split at hmem
  · obtain ⟨r0, hr0, heq⟩ := List.mem_map.mp hmem
    by_cases hk : rateKey r0 == (a, b, dd)
    · rw [if_pos hk] at heq
      subst heq
      rw [beq_iff_eq, rateKey, Prod.mk.injEq, Prod.mk.injEq] at hk
      exact hv (by rw [← hk.1, ← hk.2.1]; exact hrid)
    · rw [if_neg hk] at heq
      subst heq
      exact hdb r0 hr0 hrid
  · rcases List.mem_append.mp hmem with hmem | hmem
    · exact hdb r hmem hrid
    · rcases List.mem_singleton.mp hmem with rfl
      exact hv hrid

/-- C4 (amended): for every pair whose uppercased source and target codes
coincide, both adapters' `get_exchange_rate` return rate exactly 1
unconditionally; the resolution service's resolve
(`get_exchange_rate_data`) returns rate exactly 1 provided every stored
identity-pair record carries rate 1, an invariant resolve itself
preserves. -/
theorem identity_pair_rate_one :
    (∀ (cfg : MockCfg) (tw : Nat → Nat → ℚ) (e : Nat → ℚ) (src tgt : String) (vd : Dt)
      (s : PyRand), pyUpper src = pyUpper tgt →
      mockGetExchangeRate cfg tw e src tgt vd s =
        .ok (⟨pyUpper src, pyUpper tgt, vd, 1, "Mock Provider"⟩, s)) ∧
    (∀ (env : CbEnv) (cache : CbCache) (src tgt : String) (vd : Dt),
      pyUpper src = pyUpper tgt →
      cbGetExchangeRate env cache src tgt vd =
        .ok (⟨pyUpper src, pyUpper tgt, vd, 1, "CurrencyBeacon"⟩, cache)) ∧
    (∀ (currencies : List String) (db : List RateRec)
      (fetch : String → String → Dt → Except AdapterError ExchangeRateResult)
      (src tgt : String) (d : Dt) (r : RateRec) (db' : List RateRec),
      IdentityOne db →
      (∀ s t d0 q, s = t → fetch s t d0 = .ok q → q.rate_value = 1) →
      pyUpper src = pyUpper tgt →
      getExchangeRateData currencies db fetch src tgt d = .ok (r, db') →
      r.rate = 1 ∧ IdentityOne db') := by
  refine ⟨?_, ?_, ?_⟩
  · intro cfg tw e src tgt vd s h
    simp [mockGetExchangeRate, h]
  · intro env cache src tgt vd h
    simp [cbGetExchangeRate, h]
  · intro currencies db fetch src tgt d r db' hdb hfetch hid hcall
    unfold getExchangeRateData at hcall
    simp only [] at hcall
    rcases hdbl : dbLookup db (pyUpper src) (pyUpper tgt) d with _ | rec
    · simp only [hdbl] at hcall
      rcases hf : fetch (pyUpper src) (pyUpper tgt) d with err | res
      · simp only [hf] at hcall
        exact absurd hcall (by simp)
      · simp only [hf] at hcall
        have hrate : res.rate_value = 1 := hfetch _ _ _ _ hid hf
        unfold saveRateToDb at hcall
        split at hcall
        · split at hcall
          · rw [Except.ok.injEq, Prod.mk.injEq] at hcall
            obtain ⟨hr, hdb'⟩ := hcall
            constructor
            · rw [← hr]; exact hrate
            · rw [← hdb']
              exact identityOne_updateOrCreate hdb (fun _ => hrate)
          · exact absurd hcall (by simp)
        · exact absurd hcall (by simp)
    · simp only [hdbl] at hcall
      rw [Except.ok.injEq, Prod.mk.injEq] at hcall
      obtain ⟨hr, hdb'⟩ := hcall
      obtain ⟨hmem, hs, ht, -⟩ := dbLookup_some hdbl
      constructor
      · rw [← hr]
        exact hdb rec hmem (by rw [hs, ht, hid])
      · rw [← hdb']; exact hdb

/-- Counterexample to C4 as stated: resolve consults the stored table
first and returns a stored identity-pair record as-is, so on a database
holding `(EUR, EUR, 2024-01-15) ↦ 2` (reachable through the bulk
historical load, which never special-cases identity pairs) it returns
rate 2, not 1. -/
theorem identity_pair_service_cex :
    (getExchangeRateData ["EUR"] [⟨"EUR", "EUR", ⟨2024, 1, 15⟩, 2⟩]
        (fun s t d => .ok ⟨s, t, d, 1, "Mock Provider"⟩) "EUR" "EUR"
        ⟨2024, 1, 15⟩).toOption.map (fun p => p.1.rate) = some 2 ∧ (2 : ℚ) ≠ 1 := by
  constructor
  · rfl
  · norm_num

/-- Witness for C4 at a concrete identity pair (`eur`/`EUR`), an empty
database and a rate-1 provider. -/
theorem identity_pair_rate_one_witness :
    mockGetExchangeRate defaultMockCfg (fun _ _ => 0) (fun _ => 0) "eur" "EUR"
        ⟨2024, 1, 15⟩ ⟨none, 0⟩ =
      .ok (⟨"EUR", "EUR", ⟨2024, 1, 15⟩, 1, "Mock Provider"⟩, ⟨none, 0⟩) ∧
    cbGetExchangeRate ⟨⟨2024, 1, 15⟩, fun _ _ => .ok []⟩ (fun _ => none) "eur" "EUR"
        ⟨2024, 1, 15⟩ =
      .ok (⟨"EUR", "EUR", ⟨2024, 1, 15⟩, 1, "CurrencyBeacon"⟩, fun _ => none) ∧
    ((⟨"EUR", "EUR", ⟨2024, 1, 15⟩, 1⟩ : RateRec).rate = 1 ∧
      IdentityOne [⟨"EUR", "EUR", ⟨2024, 1, 15⟩, 1⟩]) :=
  ⟨identity_pair_rate_one.1 defaultMockCfg (fun _ _ => 0) (fun _ => 0) "eur" "EUR"
      ⟨2024, 1, 15⟩ ⟨none, 0⟩ (by decide),
   identity_pair_rate_one.2.1 ⟨⟨2024, 1, 15⟩, fun _ _ => .ok []⟩ (fun _ => none) "eur" "EUR"
      ⟨2024, 1, 15⟩ (by decide),
   identity_pair_rate_one.2.2 ["EUR"] []
      (fun s t d0 => .ok ⟨s, t, d0, 1, "Mock Provider"⟩) "eur" "EUR" ⟨2024, 1, 15⟩
      ⟨"EUR", "EUR", ⟨2024, 1, 15⟩, 1⟩ [⟨"EUR", "EUR", ⟨2024, 1, 15⟩, 1⟩]
      (fun r hr => absurd hr (List.not_mem_nil r))
      (fun s t d0 q hst hq => by cases hq; rfl)
      (by decide) rfl⟩

/-- The fallback returns the sorted loop output and the loop's cache. -/
theorem cbFallbackHistoricalRates_eq (env : CbEnv) (cache : CbCache) (src tgt : String)
    (start e_ : Dt) :
    cbFallbackHistoricalRates env cache src tgt start e_ =
      (sortByDate (cbFallbackLoop env src tgt (dateRange start (minDt e_ env.today)) cache 0).1,
        (cbFallbackLoop env src tgt (dateRange start (minDt e_ env.today)) cache 0).2) := by
  unfold cbFallbackHistoricalRates
  rcases h : cbFallbackLoop env src tgt (dateRange start (minDt e_ env.today)) cache 0
    with ⟨res, c⟩
  simp [h]

/-- The mock historical loop succeeds and quotes exactly the listed days. -/
theorem mockHistLoop_spec (cfg : MockCfg) (tw : Nat → Nat → ℚ) (e : Nat → ℚ)
    (src tgt : String) :
    ∀ (ds : List Dt) (s : PyRand), ∃ l s',
      mockHistLoop cfg tw e src tgt ds s = .ok (l, s') ∧ ratesDates l = ds := by
  intro ds
  induction ds with
  | nil => intro s; exact ⟨[], s, rfl, rfl⟩
  | cons d rest ih =>
    intro s
    obtain ⟨q, s1, hq, hdq, -, -⟩ := mockGER_ok cfg tw e src tgt d s
    obtain ⟨l, s2, hl, hdl⟩ := ih s1
    refine ⟨q :: l, s2, ?_, ?_⟩
    · simp [mockHistLoop, hq, hl]
    · simp only [ratesDates, List.map_cons] at hdl ⊢
      rw [hdq, hdl]

/-- C8 (amended): the remote adapter's `get_historical_rates` fails with an
input error (`ValueError`) whenever `start_date > end_date`, and whenever
it succeeds its result is ordered ascending by date; the mock adapter
performs no range validation — it succeeds on every range, returning one
quote per day of the range (empty when `start_date > end_date`), in
strictly ascending date order. -/
theorem historical_range_validation_and_order :
    (∀ (env : CbEnv) (cache : CbCache) (src tgt : String) (start e_ : Dt)
      (ts : Except String TsRates), dtLT e_ start →
      cbGetHistoricalRates env cache src tgt start e_ ts =
        .error (.valueError "start_date must be before end_date")) ∧
    (∀ (env : CbEnv) (cache : CbCache) (src tgt : String) (start e_ : Dt)
      (ts : Except String TsRates) (l : List ExchangeRateResult) (c' : CbCache),
      cbGetHistoricalRates env cache src tgt start e_ ts = .ok (l, c') →
      l.Pairwise (fun a b => dtLE a.valuation_date b.valuation_date)) ∧
    (∀ (cfg : MockCfg) (tw : Nat → Nat → ℚ) (e : Nat → ℚ) (src tgt : String)
      (start e_ : Dt) (s : PyRand), ∃ l s',
      mockGetHistoricalRates cfg tw e src tgt start e_ s = .ok (l, s') ∧
      ratesDates l = dateRange start e_ ∧
      l.Pairwise (fun a b => dtLT a.valuation_date b.valuation_date)) := by
  refine ⟨?_, ?_, ?_⟩
  · intro env cache src tgt start e_ ts h
    simp [cbGetHistoricalRates, h]
  · intro env cache src tgt start e_ ts l c' h
    unfold cbGetHistoricalRates at h
    split at h
    · exact absurd h (by simp)
    · split at h
      · rw [Except.ok.injEq, Prod.mk.injEq] at h
        rw [← h.1]
        exact List.Pairwise.nil
      · split at h
        · simp only [] at h
          rw [cbFallbackHistoricalRates_eq, Except.ok.injEq, Prod.mk.injEq] at h
          rw [← h.1]
          exact sortByDate_sorted _
        · simp only [] at h
          rw [cbFallbackHistoricalRates_eq, Except.ok.injEq, Prod.mk.injEq] at h
          rw [← h.1]
          exact sortByDate_sorted _
        · simp only [] at h
          rw [cbFallbackHistoricalRates_eq, Except.ok.injEq, Prod.mk.injEq] at h
          rw [← h.1]
          exact sortByDate_sorted _
        · simp only [] at h
          split at h
          · rw [cbFallbackHistoricalRates_eq, Except.ok.injEq, Prod.mk.injEq] at h
            rw [← h.1]
            exact sortByDate_sorted _
          · rw [Except.ok.injEq, Prod.mk.injEq] at h
            rw [← h.1]
            exact sortByDate_sorted _
  · intro cfg tw e src tgt start e_ s
    obtain ⟨l, s', hl, hd⟩ := mockHistLoop_spec cfg tw e src tgt (dateRange start e_) s
    refine ⟨l, s', hl, hd, ?_⟩
    have hp : (List.map (fun r => r.valuation_date) l).Pairwise dtLT := by
      have := dateRange_sorted start e_
      rw [← hd] at this
      exact this
    exact (List.pairwise_map.mp hp)

/-- Counterexample to C8 as stated: the mock adapter, given
`start_date > end_date`, does not fail with an input error — it returns a
successful empty result. -/
theorem mock_historical_no_range_validation_cex :
    mockGetHistoricalRates defaultMockCfg (fun _ _ => 0) (fun _ => 0) "EUR" "USD"
      ⟨2024, 1, 2⟩ ⟨2024, 1, 1⟩ ⟨none, 0⟩ = .ok ([], ⟨none, 0⟩) := rfl

/-- Witness for C8: the remote adapter rejects the inverted range
2024-01-05..2024-01-04; a future-start call succeeds with an (ascending)
empty result; the mock succeeds on 2024-01-02..2024-01-01. -/
theorem historical_range_validation_witness :
    cbGetHistoricalRates ⟨⟨2024, 1, 10⟩, fun _ _ => .ok []⟩ (fun _ => none) "EUR" "USD"
        ⟨2024, 1, 5⟩ ⟨2024, 1, 4⟩ (.ok .asList) =
      .error (.valueError "start_date must be before end_date") ∧
    ([] : List ExchangeRateResult).Pairwise
      (fun a b => dtLE a.valuation_date b.valuation_date) ∧
    (∃ l s', mockGetHistoricalRates defaultMockCfg (fun _ _ => 0) (fun _ => 0) "EUR" "USD"
        ⟨2024, 1, 2⟩ ⟨2024, 1, 1⟩ ⟨none, 0⟩ = .ok (l, s') ∧
      ratesDates l = dateRange ⟨2024, 1, 2⟩ ⟨2024, 1, 1⟩ ∧
      l.Pairwise (fun a b => dtLT a.valuation_date b.valuation_date)) :=
  ⟨historical_range_validation_and_order.1 ⟨⟨2024, 1, 10⟩, fun _ _ => .ok []⟩ (fun _ => none)
      "EUR" "USD" ⟨2024, 1, 5⟩ ⟨2024, 1, 4⟩ (.ok .asList) (by decide),
   historical_range_validation_and_order.2.1 ⟨⟨2024, 1, 10⟩, fun _ _ => .ok []⟩
      (fun _ => none) "EUR" "USD" ⟨2024, 1, 12⟩ ⟨2024, 1, 12⟩ (.ok .asList) [] (fun _ => none)
      rfl,
   historical_range_validation_and_order.2.2 defaultMockCfg (fun _ _ => 0) (fun _ => 0)
      "EUR" "USD" ⟨2024, 1, 2⟩ ⟨2024, 1, 1⟩ ⟨none, 0⟩⟩

/-- Replacing a record's rate leaves its key unchanged. -/
theorem rateKey_set_rate (r : RateRec) (v : ℚ) : rateKey { r with rate := v } = rateKey r := rfl

/-- Keys after an upsert: unchanged on overwrite, extended by the new key
on insert. -/
theorem updateOrCreate_keys (db : List RateRec) (s t : String) (d : Dt) (v : ℚ) :
    (updateOrCreate db s t d v).map rateKey =
      if db.any (fun r => rateKey r == (s, t, d)) then db.map rateKey
      else db.map rateKey ++ [(s, t, d)] := by
  unfold updateOrCreate
  split
  · rw [List.map_map]
    refine List.map_congr_left ?_
    intro r _
    simp only [Function.comp_apply]
    split
    · rfl
    · rfl
  · rw [List.map_append]
    rfl

/-- The upserted key is present afterwards. -/
theorem updateOrCreate_mem_key (db : List RateRec) (s t : String) (d : Dt) (v : ℚ) :
    (s, t, d) ∈ (updateOrCreate db s t d v).map rateKey := by
  rw [updateOrCreate_keys]
  split
  · rename_i hany
    obtain ⟨r, hr, hk⟩ := List.any_eq_true.mp hany
    rw [beq_iff_eq] at hk
    exact hk ▸ List.mem_map_of_mem rateKey hr
  · exact List.mem_append.mpr (Or.inr (List.mem_singleton.mpr rfl))

/-- An upsert preserves key uniqueness. -/
theorem nodupKeys_updateOrCreate {db : List RateRec} (h : NodupKeys db)
    (s t : String) (d : Dt) (v : ℚ) : NodupKeys (updateOrCreate db s t d v) := by
  unfold NodupKeys
  rw [updateOrCreate_keys]
  split
  · exact h
  · rename_i hany
    rw [List.nodup_append]
    refine ⟨h, List.nodup_singleton _, ?_⟩
    intro k hk hk'
    rw [List.mem_singleton] at hk'
    subst hk'
    obtain ⟨r, hr, hkr⟩ := List.mem_map.mp hk
    apply hany
    rw [List.any_eq_true]
    exact ⟨r, hr, beq_iff_eq.mpr hkr⟩

/-- After an upsert, every record at the upserted key carries the new
value. -/
theorem updateOrCreate_rate {db : List RateRec} {s t : String} {d : Dt} {v : ℚ} :
    ∀ r ∈ updateOrCreate db s t d v, rateKey r = (s, t, d) → r.rate = v := by
  intro r hmem hk
  unfold updateOrCreate at hmem
  split at hmem
  · obtain ⟨r0, hr0, heq⟩ := List.mem_map.mp hmem
    by_cases hk0 : rateKey r0 == (s, t, d)
    · rw [if_pos hk0] at heq
      rw [← heq]
    · rw [if_neg hk0] at heq
      subst heq
      exact absurd (beq_iff_eq.mpr hk) hk0
  · rename_i hany
    rcases List.mem_append.mp hmem with hmem | hmem
    · refine absurd ?_ hany
      rw [List.any_eq_true]
      exact ⟨r, hmem, beq_iff_eq.mpr hk⟩
    · rw [List.mem_singleton] at hmem
      rw [hmem]

/-- Under key uniqueness, at most one record carries any given key. -/
theorem countKey_le_one {db : List RateRec} (h : NodupKeys db)
    (k : String × String × Dt) : countKey db k ≤ 1 := by
  induction db with
  | nil => simp [countKey]
  | cons r rest ih =>
    rw [NodupKeys, List.map_cons, List.nodup_cons] at h
    obtain ⟨hnot, hrest⟩ := h
    unfold countKey at ih ⊢
    rw [List.filter_cons]
    by_cases hk : rateKey r == k
    · rw [if_pos hk]
      have hz : (rest.filter (fun r0 => rateKey r0 == k)).length = 0 := by
        rw [List.length_eq_zero, List.filter_eq_nil_iff]
        intro r0 hr0 hbeq
        rw [beq_iff_eq] at hk hbeq
        exact hnot (hk ▸ hbeq ▸ List.mem_map_of_mem rateKey hr0)
      simp [hz]
    · rw [if_neg hk]
      exact ih hrest

/-- A present key is carried by at least one record. -/
theorem countKey_pos {db : List RateRec} {k : String × String × Dt}
    (h : k ∈ db.map rateKey) : 1 ≤ countKey db k := by
  obtain ⟨r, hr, hk⟩ := List.mem_map.mp h
  have hmem : r ∈ db.filter (fun r0 => rateKey r0 == k) :=
    List.mem_filter.mpr ⟨hr, beq_iff_eq.mpr hk⟩
  exact List.length_pos_of_mem hmem

/-- A bulk save preserves key uniqueness. -/
theorem nodupKeys_bulkSaveRates (currencies : List String)
    (results : List ExchangeRateResult) :
    ∀ {db : List RateRec}, NodupKeys db → NodupKeys (bulkSaveRates currencies db results) := by
  induction results with
  | nil => intro db h; exact h
  | cons res rest ih =>
    intro db h
    unfold bulkSaveRates at ih ⊢
    rw [List.foldl_cons]
    refine ih ?_
    unfold bulkSaveStep
    split
    · exact nodupKeys_updateOrCreate h _ _ _ _
    · exact h

/-- C3: persisting a resolved rate is an upsert keyed by
`(source, target, valuation_date)`: upserting the same key twice with
different rates leaves exactly one stored record for the key, holding the
later value; and neither a single-rate save nor a bulk save ever breaks
the one-record-per-key invariant. -/
theorem rate_upsert_spec (db : List RateRec) (s t : String) (d : Dt) (v1 v2 : ℚ)
    (currencies : List String) (results : List ExchangeRateResult)
    (h : NodupKeys db) :
    countKey (updateOrCreate (updateOrCreate db s t d v1) s t d v2) (s, t, d) = 1 ∧
    (∀ r ∈ updateOrCreate (updateOrCreate db s t d v1) s t d v2,
      rateKey r = (s, t, d) → r.rate = v2) ∧
    NodupKeys (updateOrCreate db s t d v1) ∧
    NodupKeys (bulkSaveRates currencies db results) := by
  have h1 : NodupKeys (updateOrCreate db s t d v1) := nodupKeys_updateOrCreate h s t d v1
  have h2 : NodupKeys (updateOrCreate (updateOrCreate db s t d v1) s t d v2) :=
    nodupKeys_updateOrCreate h1 s t d v2
  refine ⟨?_, updateOrCreate_rate, h1, nodupKeys_bulkSaveRates currencies results h⟩
  have hmem := updateOrCreate_mem_key (updateOrCreate db s t d v1) s t d v2
  exact Nat.le_antisymm (countKey_le_one h2 _) (countKey_pos hmem)

/-- Witness for C3: starting from a database holding an unrelated key,
upserting `(EUR, USD, 2024-01-15)` with 2 and then 3 leaves exactly one
record for the key, with rate 3, and all invariants hold. -/
theorem rate_upsert_witness :
    countKey (updateOrCreate (updateOrCreate [⟨"EUR", "GBP", ⟨2024, 1, 14⟩, 5⟩]
        "EUR" "USD" ⟨2024, 1, 15⟩ 2) "EUR" "USD" ⟨2024, 1, 15⟩ 3)
      ("EUR", "USD", ⟨2024, 1, 15⟩) = 1 ∧
    (∀ r ∈ updateOrCreate (updateOrCreate [⟨"EUR", "GBP", ⟨2024, 1, 14⟩, 5⟩]
        "EUR" "USD" ⟨2024, 1, 15⟩ 2) "EUR" "USD" ⟨2024, 1, 15⟩ 3,
      rateKey r = ("EUR", "USD", ⟨2024, 1, 15⟩) → r.rate = 3) ∧
    NodupKeys (updateOrCreate [⟨"EUR", "GBP", ⟨2024, 1, 14⟩, 5⟩]
      "EUR" "USD" ⟨2024, 1, 15⟩ 2) ∧
    NodupKeys (bulkSaveRates ["EUR"] [⟨"EUR", "GBP", ⟨2024, 1, 14⟩, 5⟩] []) :=
  rate_upsert_spec [⟨"EUR", "GBP", ⟨2024, 1, 14⟩, 5⟩] "EUR" "USD" ⟨2024, 1, 15⟩ 2 3
    ["EUR"] [] (by unfold NodupKeys; decide)

/-- The mock batch loop succeeds and quotes exactly the uppercased targets
that differ from the uppercased source, in order. -/
theorem mockRatesLoop_spec (cfg : MockCfg) (tw : Nat → Nat → ℚ) (e : Nat → ℚ)
    (src : String) (vd : Dt) :
    ∀ (ts : List String) (s : PyRand), ∃ l s',
      mockRatesLoop cfg tw e src vd ts s = .ok (l, s') ∧
      l.map (fun q => q.exchanged_currency) =
        (ts.map pyUpper).filter (fun u => u != pyUpper src) := by
  intro ts
  induction ts with
  | nil => intro s; exact ⟨[], s, rfl, rfl⟩
  | cons t rest ih =>
    intro s
    by_cases ht : pyUpper t ≠ pyUpper src
    · obtain ⟨q, s1, hq, -, -, hqt⟩ := mockGER_ok cfg tw e src t vd s
      obtain ⟨l, s2, hl, hml⟩ := ih s1
      refine ⟨q :: l, s2, ?_, ?_⟩
      · simp only [mockRatesLoop]
        rw [if_pos ht]
        simp [hq, hl]
      · rw [List.map_cons, List.map_cons, List.filter_cons,
          if_pos (by simp [bne_iff_ne]; exact ht), hqt, hml]
    · obtain ⟨l, s2, hl, hml⟩ := ih s
      refine ⟨l, s2, ?_, ?_⟩
      · simp only [mockRatesLoop]
        rw [if_neg ht, hl]
      · rw [List.map_cons, List.filter_cons,
          if_neg (by simpa [bne_iff_ne] using ht), hml]

/-- C9: the remote adapter's `get_exchange_rates_for_date` can never
succeed — whatever the upstream response, line 226 reads the unassigned
local `rates` and the resulting error is re-raised as
`ProviderUnavailableError` — while the mock's batch fetch succeeds with
one quote per (uppercased) requested target, omitting the source and
restricted to the requested target list. -/
theorem get_rates_for_date_spec :
    (∀ (env : CbEnv) (src : String) (vd : Dt) (targets : Option (List String)),
      ∃ m, cbGetExchangeRatesForDate env src vd targets =
        .error (.providerUnavailable m)) ∧
    (∀ (cfg : MockCfg) (tw : Nat → Nat → ℚ) (e : Nat → ℚ) (src : String) (vd : Dt)
      (targets : Option (List String)) (s : PyRand), ∃ l s',
      mockGetExchangeRatesForDate cfg tw e src vd targets s = .ok (l, s') ∧
      l.map (fun q => q.exchanged_currency) =
        ((targets.getD ["EUR", "USD", "GBP", "CHF"]).map pyUpper).filter
          (fun u => u != pyUpper src)) := by
  constructor
  · intro env src vd targets
    unfold cbGetExchangeRatesForDate
    rcases hr : cbDateRoute env.today vd with ⟨ep, actual⟩
    rcases ha : env.api ep (pyUpper src) with m | rates
    · exact ⟨"Failed to get rates: " ++ m, by simp [hr, ha]⟩
    · exact ⟨"Failed to get rates: local variable 'rates' referenced before assignment",
        by simp [hr, ha]⟩
  · intro cfg tw e src vd targets s
    exact mockRatesLoop_spec cfg tw e src vd (targets.getD ["EUR", "USD", "GBP", "CHF"]) s

/-- The failover attempt trace extends to the whole list (it stops at the
first success). -/
theorem failoverLoop_trace {α : Type} (op : Provider → Except String α) :
    ∀ (l : List Provider) (last : Option String),
      ∃ rest, (failoverLoop op l last).2 ++ rest = l := by
  intro l
  induction l with
  | nil => intro last; exact ⟨[], rfl⟩
  | cons p ps ih =>
    intro last
    rcases hop : op p with m | r
    · obtain ⟨rest, hrest⟩ := ih (some m)
      refine ⟨rest, ?_⟩
      simp only [failoverLoop, hop]
      rcases hl : failoverLoop op ps (some m) with ⟨res, tr⟩
      rw [hl] at hrest
      simpa using hrest
    · exact ⟨ps, by simp [failoverLoop, hop]⟩

/-- The failover result is the first successful provider's result. -/
theorem failoverLoop_find {α : Type} (op : Provider → Except String α) :
    ∀ (l : List Provider) (last : Option String) (p : Provider),
      l.find? (fun q => isOkE (op q)) = some p →
      (failoverLoop op l last).1 = op p := by
  intro l
  induction l with
  | nil => intro last p h; simp at h
  | cons a ps ih =>
    intro last p h
    rw [List.find?_cons] at h
    rcases hop : op a with m | r
    · rw [hop] at h
      simp only [isOkE] at h
      have hres := ih (some m) p h
      simp only [failoverLoop, hop]
      rcases hl : failoverLoop op ps (some m) with ⟨res, tr⟩
      rw [hl] at hres
      simpa using hres
    · rw [hop] at h
      simp only [isOkE] at h
      rw [Option.some.injEq] at h
      subst h
      simp [failoverLoop, hop]

/-- When every provider fails, the loop raises the aggregate error with
the last provider's message. -/
theorem failoverLoop_allfail {α : Type} (op : Provider → Except String α) :
    ∀ (l : List Provider) (last : Option String) (hne : l ≠ []),
      (∀ p ∈ l, isOkE (op p) = false) →
      ∃ m, op (l.getLast hne) = .error m ∧
        (failoverLoop op l last).1 = .error ("All providers failed. Last error: " ++ m) := by
  intro l
  induction l with
  | nil => intro last hne _; exact absurd rfl hne
  | cons a ps ih =>
    intro last hne hf
    rcases hop : op a with m | r
    · by_cases hpsne : ps = []
      · subst hpsne
        refine ⟨m, ?_, ?_⟩
        · simpa [List.getLast] using hop
        · simp [failoverLoop, hop]
      · obtain ⟨m', hm', hres⟩ :=
          ih (some m) hpsne (fun p hp => hf p (List.mem_cons_of_mem a hp))
        refine ⟨m', ?_, ?_⟩
        · rw [List.getLast_cons hpsne]
          exact hm'
        · simp only [failoverLoop, hop]
          rcases hl : failoverLoop op ps (some m) with ⟨res, tr⟩
          rw [hl] at hres
          simpa using hres
    · have hfa := hf a (List.mem_cons_self a ps)
      rw [hop] at hfa
      simp [isOkE] at hfa

/-- C2: `execute_with_failover` invokes the operation on active providers
in ascending `(priority, name)` order, each attempted provider exactly
once, and returns the first provider's successful result without raising;
on an empty active-provider list it raises the aggregate error without
invoking any adapter; when every provider fails it raises the aggregate
error carrying the last provider's error message. The second component of
`executeWithFailover` is the trace of providers the operation was invoked
on, in order. -/
theorem execute_with_failover_spec {α : Type} (op : Provider → Except String α)
    (ps : List Provider) (hnd : (ps.filter (fun p => p.is_active)).Nodup) :
    (getActiveProviders ps = [] →
      executeWithFailover op ps =
        (.error "No active exchange rate providers configured", [])) ∧
    (∃ rest, (executeWithFailover op ps).2 ++ rest = getActiveProviders ps) ∧
    (executeWithFailover op ps).2.Nodup ∧
    (executeWithFailover op ps).2.Pairwise (fun a b => provLE a b = true) ∧
    (∀ p, (getActiveProviders ps).find? (fun q => isOkE (op q)) = some p →
      (executeWithFailover op ps).1 = op p) ∧
    (∀ hne : getActiveProviders ps ≠ [],
      (∀ p ∈ getActiveProviders ps, isOkE (op p) = false) →
      ∃ m, op ((getActiveProviders ps).getLast hne) = .error m ∧
        (executeWithFailover op ps).1 =
          .error ("All providers failed. Last error: " ++ m)) := by
  have hactnd : (getActiveProviders ps).Nodup := by
    unfold getActiveProviders
    exact ((List.mergeSort_perm (ps.filter (fun p => p.is_active)) provLE).nodup_iff).mpr hnd
  have hactsorted : (getActiveProviders ps).Pairwise (fun a b => provLE a b = true) := by
    unfold getActiveProviders
    exact @List.sorted_mergeSort Provider provLE (fun a b c h1 h2 => provLE_trans h1 h2)
      (fun a b => provLE_total a b) (ps.filter (fun p => p.is_active))
  have htr : ∃ rest, (executeWithFailover op ps).2 ++ rest = getActiveProviders ps := by
    unfold executeWithFailover
    simp only []
    split
    · rename_i hemp
      exact ⟨getActiveProviders ps, rfl⟩
    · exact failoverLoop_trace op (getActiveProviders ps) none
  obtain ⟨rest, hrest⟩ := htr
  have hsub : (executeWithFailover op ps).2.Sublist (getActiveProviders ps) := by
    rw [← hrest]
    exact List.sublist_append_left _ _
  refine ⟨?_, ⟨rest, hrest⟩, hactnd.sublist hsub, hactsorted.sublist hsub, ?_, ?_⟩
  · intro h
    unfold executeWithFailover
    simp only []
    rw [if_pos (List.isEmpty_iff.mpr h)]
  · intro p h
    unfold executeWithFailover
    simp only []
    split
    · rename_i hemp
      rw [List.isEmpty_iff.mp hemp] at h
      simp at h
    · exact failoverLoop_find op (getActiveProviders ps) none p h
  · intro hne hf
    unfold executeWithFailover
    simp only []
    split
    · rename_i hemp
      exact absurd (List.isEmpty_iff.mp hemp) hne
    · exact failoverLoop_allfail op (getActiveProviders ps) none hne hf

/-- Witness for C2: with P1 (priority 1, fails) and P2 (priority 2,
succeeds) both active, the orchestrator's trace is a prefix of the sorted
active list and the returned value is P2's result `.ok 42`. -/
theorem execute_with_failover_witness :
    (∃ rest,
      (executeWithFailover
          (fun p => if p.name = "P1" then (.error "boom" : Except String Nat) else .ok 42)
          [⟨"P1", "a", 1, true⟩, ⟨"P2", "b", 2, true⟩]).2 ++ rest =
        getActiveProviders [⟨"P1", "a", 1, true⟩, ⟨"P2", "b", 2, true⟩]) ∧
    (executeWithFailover
        (fun p => if p.name = "P1" then (.error "boom" : Except String Nat) else .ok 42)
        [⟨"P1", "a", 1, true⟩, ⟨"P2", "b", 2, true⟩]).1 = .ok 42 := by
  have hact : getActiveProviders [⟨"P1", "a", 1, true⟩, ⟨"P2", "b", 2, true⟩] =
      [⟨"P1", "a", 1, true⟩, ⟨"P2", "b", 2, true⟩] := by
    unfold getActiveProviders
    exact List.mergeSort_of_sorted (by decide)
  have h := execute_with_failover_spec
    (fun p => if p.name = "P1" then (.error "boom" : Except String Nat) else .ok 42)
    [⟨"P1", "a", 1, true⟩, ⟨"P2", "b", 2, true⟩] (by decide)
  refine ⟨h.2.1, ?_⟩
  have hres := h.2.2.2.2.1 ⟨"P2", "b", 2, true⟩ (by rw [hact]; rfl)
  rw [hres]
  rfl

/-- C7: one step of the per-day fallback loop
(`_fallback_historical_rates`): a cache hit or a successful fetch appends
the quote and resets the consecutive-error counter; a `RateNotFoundError`
is swallowed — the date is skipped, nothing is appended, no error is
raised — and resets the counter to zero; any other failure increments the
counter, and when it reaches 5 the loop aborts immediately, so only the
quotes collected up to that point are returned (the fallback itself never
raises). -/
theorem cb_fallback_error_counter (env : CbEnv) (src tgt : String) (d : Dt)
    (rest : List Dt) (cache : CbCache) (cnt : Nat) :
    (∀ r, cache d = some r →
      cbFallbackLoop env src tgt (d :: rest) cache cnt =
        ((r :: (cbFallbackLoop env src tgt rest cache 0).1),
          (cbFallbackLoop env src tgt rest cache 0).2)) ∧
    (∀ r c', cache d = none → cbGetExchangeRate env cache src tgt d = .ok (r, c') →
      cbFallbackLoop env src tgt (d :: rest) cache cnt =
        ((r :: (cbFallbackLoop env src tgt rest c' 0).1),
          (cbFallbackLoop env src tgt rest c' 0).2)) ∧
    (∀ m, cache d = none →
      cbGetExchangeRate env cache src tgt d = .error (.rateNotFound m) →
      cbFallbackLoop env src tgt (d :: rest) cache cnt =
        cbFallbackLoop env src tgt rest cache 0) ∧
    (∀ m, cache d = none →
      cbGetExchangeRate env cache src tgt d = .error (.providerUnavailable m) →
      cnt + 1 < 5 →
      cbFallbackLoop env src tgt (d :: rest) cache cnt =
        cbFallbackLoop env src tgt rest cache (cnt + 1)) ∧
    (∀ m, cache d = none →
      cbGetExchangeRate env cache src tgt d = .error (.providerUnavailable m) →
      cnt + 1 ≥ 5 →
      cbFallbackLoop env src tgt (d :: rest) cache cnt = ([], cache)) := by
  refine ⟨?_, ?_, ?_, ?_, ?_⟩
  · intro r hcd
    simp only [cbFallbackLoop, hcd]
  · intro r c' hcd hger
    simp only [cbFallbackLoop, hcd, hger]
  · intro m hcd hger
    simp only [cbFallbackLoop, hcd, hger]
  · intro m hcd hger hlt
    simp only [cbFallbackLoop, hcd, hger]
    rw [if_neg (by omega)]
  · intro m hcd hger hge
    simp only [cbFallbackLoop, hcd, hger]
    rw [if_pos (by omega)]

/-- Witness for C7 at concrete environments: a cache hit appends and
resets, a successful fetch appends and resets, a rate-not-found day is
skipped with the counter reset, an unavailable provider increments the
counter, and the fifth consecutive failure aborts the loop. -/
theorem cb_fallback_error_counter_witness :
    cbFallbackLoop ⟨⟨2024, 1, 10⟩, fun _ _ => .ok []⟩ "EUR" "USD"
        [⟨2024, 1, 5⟩, ⟨2024, 1, 6⟩]
        (fun x => if x = ⟨2024, 1, 5⟩
          then some ⟨"EUR", "USD", ⟨2024, 1, 5⟩, 1, "CurrencyBeacon"⟩ else none) 0 =
      ((⟨"EUR", "USD", ⟨2024, 1, 5⟩, 1, "CurrencyBeacon"⟩ ::
        (cbFallbackLoop ⟨⟨2024, 1, 10⟩, fun _ _ => .ok []⟩ "EUR" "USD" [⟨2024, 1, 6⟩]
          (fun x => if x = ⟨2024, 1, 5⟩
            then some ⟨"EUR", "USD", ⟨2024, 1, 5⟩, 1, "CurrencyBeacon"⟩ else none) 0).1),
        (cbFallbackLoop ⟨⟨2024, 1, 10⟩, fun _ _ => .ok []⟩ "EUR" "USD" [⟨2024, 1, 6⟩]
          (fun x => if x = ⟨2024, 1, 5⟩
            then some ⟨"EUR", "USD", ⟨2024, 1, 5⟩, 1, "CurrencyBeacon"⟩ else none) 0).2) ∧
    cbFallbackLoop ⟨⟨2024, 1, 10⟩, fun _ _ => .ok [("USD", 1)]⟩ "EUR" "USD"
        [⟨2024, 1, 5⟩, ⟨2024, 1, 6⟩] (fun _ => none) 0 =
      ((⟨"EUR", "USD", ⟨2024, 1, 5⟩, 1, "CurrencyBeacon"⟩ ::
        (cbFallbackLoop ⟨⟨2024, 1, 10⟩, fun _ _ => .ok [("USD", 1)]⟩ "EUR" "USD"
          [⟨2024, 1, 6⟩]
          (fun x => if x = ⟨2024, 1, 5⟩
            then some ⟨"EUR", "USD", ⟨2024, 1, 5⟩, 1, "CurrencyBeacon"⟩ else none) 0).1),
        (cbFallbackLoop ⟨⟨2024, 1, 10⟩, fun _ _ => .ok [("USD", 1)]⟩ "EUR" "USD"
          [⟨2024, 1, 6⟩]
          (fun x => if x = ⟨2024, 1, 5⟩
            then some ⟨"EUR", "USD", ⟨2024, 1, 5⟩, 1, "CurrencyBeacon"⟩ else none) 0).2) ∧
    cbFallbackLoop ⟨⟨2024, 1, 10⟩, fun _ _ => .ok []⟩ "EUR" "USD"
        [⟨2024, 1, 5⟩, ⟨2024, 1, 6⟩] (fun _ => none) 3 =
      cbFallbackLoop ⟨⟨2024, 1, 10⟩, fun _ _ => .ok []⟩ "EUR" "USD" [⟨2024, 1, 6⟩]
        (fun _ => none) 0 ∧
    cbFallbackLoop ⟨⟨2024, 1, 10⟩, fun _ _ => .error "down"⟩ "EUR" "USD"
        [⟨2024, 1, 5⟩, ⟨2024, 1, 6⟩] (fun _ => none) 0 =
      cbFallbackLoop ⟨⟨2024, 1, 10⟩, fun _ _ => .error "down"⟩ "EUR" "USD" [⟨2024, 1, 6⟩]
        (fun _ => none) 1 ∧
    cbFallbackLoop ⟨⟨2024, 1, 10⟩, fun _ _ => .error "down"⟩ "EUR" "USD"
        [⟨2024, 1, 5⟩, ⟨2024, 1, 6⟩] (fun _ => none) 4 = ([], fun _ => none) :=
  ⟨(cb_fallback_error_counter ⟨⟨2024, 1, 10⟩, fun _ _ => .ok []⟩ "EUR" "USD" ⟨2024, 1, 5⟩
      [⟨2024, 1, 6⟩] _ 0).1 ⟨"EUR", "USD", ⟨2024, 1, 5⟩, 1, "CurrencyBeacon"⟩ rfl,
   (cb_fallback_error_counter ⟨⟨2024, 1, 10⟩, fun _ _ => .ok [("USD", 1)]⟩ "EUR" "USD"
      ⟨2024, 1, 5⟩ [⟨2024, 1, 6⟩] (fun _ => none) 0).2.1
      ⟨"EUR", "USD", ⟨2024, 1, 5⟩, 1, "CurrencyBeacon"⟩
      (fun x => if x = ⟨2024, 1, 5⟩
        then some ⟨"EUR", "USD", ⟨2024, 1, 5⟩, 1, "CurrencyBeacon"⟩ else none) rfl rfl,
   (cb_fallback_error_counter ⟨⟨2024, 1, 10⟩, fun _ _ => .ok []⟩ "EUR" "USD" ⟨2024, 1, 5⟩
      [⟨2024, 1, 6⟩] (fun _ => none) 3).2.2.1 "Rate not found for EUR -> USD" rfl rfl,
   (cb_fallback_error_counter ⟨⟨2024, 1, 10⟩, fun _ _ => .error "down"⟩ "EUR" "USD"
      ⟨2024, 1, 5⟩ [⟨2024, 1, 6⟩] (fun _ => none) 0).2.2.2.1 "down" rfl rfl (by decide),
   (cb_fallback_error_counter ⟨⟨2024, 1, 10⟩, fun _ _ => .error "down"⟩ "EUR" "USD"
      ⟨2024, 1, 5⟩ [⟨2024, 1, 6⟩] (fun _ => none) 4).2.2.2.2 "down" rfl rfl (by decide)⟩

theorem minDt_le_right (a b : Dt) : dtLE (minDt a b) b := by
  unfold minDt
  split
  · assumption
  · exact dtLE_refl b

/-- For a non-future date the routing's actual date is the requested
date. -/
theorem cbDateRoute_actual {today d : Dt} (h : dtLE d today) :
    (cbDateRoute today d).2 = d := by
  unfold cbDateRoute
  have hnlt : ¬ dtLT today d := not_dtLT_of_dtLE h
  rw [if_neg hnlt]
  by_cases hle : dtLE today d
  · rw [if_pos hle]
    exact dtLE_antisymm hle h
  · rw [if_neg hle]

/-- A successful single-date fetch for a non-future date, started from a
well-keyed cache, returns a quote dated at the requested date and leaves
the cache well-keyed. -/
theorem cbGER_date {env : CbEnv} {cache : CbCache} {src tgt : String} {d : Dt}
    {r : ExchangeRateResult} {c' : CbCache}
    (hcc : CacheConsistent cache) (hle : dtLE d env.today)
    (h : cbGetExchangeRate env cache src tgt d = .ok (r, c')) :
    r.valuation_date = d ∧ CacheConsistent c' := by
  unfold cbGetExchangeRate at h
  simp only [] at h
  by_cases hid : pyUpper src = pyUpper tgt
  · rw [if_pos hid] at h
    rw [Except.ok.injEq, Prod.mk.injEq] at h
    exact ⟨by rw [← h.1], by rw [← h.2]; exact hcc⟩
  · rw [if_neg hid] at h
    rcases hcd : cache d with _ | r0
    · simp only [hcd] at h
      have hactual : (cbDateRoute env.today d).2 = d := cbDateRoute_actual hle
      rcases happ : env.api (cbDateRoute env.today d).1 (pyUpper src) with m | rates
      · simp only [happ] at h
        exact absurd h (by simp)
      · simp only [happ] at h
        rcases hlook : lookupRates rates (pyUpper tgt) with _ | rv
        · simp only [hlook] at h
          exact absurd h (by simp)
        · simp only [hlook] at h
          rw [Except.ok.injEq, Prod.mk.injEq] at h
          constructor
          · rw [← h.1, hactual]
          · rw [← h.2]
            intro d0 q0 hq0
            simp only [] at hq0
            by_cases hd0 : d0 = d
            · subst hd0
              rw [if_pos rfl] at hq0
              rw [Option.some.injEq] at hq0
              rw [← hq0]
              exact hactual
            · rw [if_neg hd0] at hq0
              exact hcc d0 q0 hq0
    · simp only [hcd] at h
      rw [Except.ok.injEq, Prod.mk.injEq] at h
      refine ⟨?_, by rw [← h.2]; exact hcc⟩
      rw [← h.1]
      exact hcc d r0 hcd

/-- Starting from a well-keyed cache, the dates of the quotes collected by
the fallback loop form a sublist of the days iterated over, and the cache
stays well-keyed. -/
theorem cbFallbackLoop_dates {env : CbEnv} {src tgt : String} :
    ∀ (ds : List Dt) (cache : CbCache) (cnt : Nat),
      CacheConsistent cache → (∀ x ∈ ds, dtLE x env.today) →
      ((cbFallbackLoop env src tgt ds cache cnt).1.map
        (fun q => q.valuation_date)).Sublist ds ∧
      CacheConsistent (cbFallbackLoop env src tgt ds cache cnt).2 := by
  intro ds
  induction ds with
  | nil =>
    intro cache cnt hcc _
    exact ⟨List.nil_sublist [], hcc⟩
  | cons d rest ih =>
    intro cache cnt hcc hall
    have hdle : dtLE d env.today := hall d (List.mem_cons_self d rest)
    have hrest : ∀ x ∈ rest, dtLE x env.today :=
      fun x hx => hall x (List.mem_cons_of_mem d hx)
    rcases hcd : cache d with _ | r
    · rcases hger : cbGetExchangeRate env cache src tgt d with err | pr
      · rcases err with m | m | m
        · obtain ⟨h1, h2⟩ := ih cache 0 hcc hrest
          simp only [cbFallbackLoop, hcd, hger]
          exact ⟨h1.cons d, h2⟩
        · simp only [cbFallbackLoop, hcd, hger]
          split
          · exact ⟨List.nil_sublist _, hcc⟩
          · obtain ⟨h1, h2⟩ := ih cache (cnt + 1) hcc hrest
            exact ⟨h1.cons d, h2⟩
        · simp only [cbFallbackLoop, hcd, hger]
          split
          · exact ⟨List.nil_sublist _, hcc⟩
          · obtain ⟨h1, h2⟩ := ih cache (cnt + 1) hcc hrest
            exact ⟨h1.cons d, h2⟩
      · rcases pr with ⟨r, c'⟩
        obtain ⟨hdate, hcc'⟩ := cbGER_date hcc hdle hger
        obtain ⟨h1, h2⟩ := ih c' 0 hcc' hrest
        simp only [cbFallbackLoop, hcd, hger]
        refine ⟨?_, h2⟩
        rw [List.map_cons, hdate]
        exact h1.cons₂ d
    · have hrd : r.valuation_date = d := hcc d r hcd
      obtain ⟨h1, h2⟩ := ih cache 0 hcc hrest
      simp only [cbFallbackLoop, hcd]
      refine ⟨?_, h2⟩
      rw [List.map_cons, hrd]
      exact h1.cons₂ d

/-- Starting from a well-keyed cache, the fallback's sorted output has no
two quotes with the same date. -/
theorem cbFallbackHistoricalRates_nodup {env : CbEnv} {cache : CbCache}
    {src tgt : String} {start e2 : Dt} (hcc : CacheConsistent cache) :
    (ratesDates (cbFallbackHistoricalRates env cache src tgt start e2).1).Nodup := by
  rw [cbFallbackHistoricalRates_eq]
  have hall : ∀ x ∈ dateRange start (minDt e2 env.today), dtLE x env.today :=
    fun x hx => dtLE_trans (mem_dateRange_le hx) (minDt_le_right e2 env.today)
  obtain ⟨hsub, -⟩ :=
    cbFallbackLoop_dates (dateRange start (minDt e2 env.today)) cache 0 hcc hall
  have hnd :
      ((cbFallbackLoop env src tgt (dateRange start (minDt e2 env.today)) cache 0).1.map
        (fun q => q.valuation_date)).Nodup :=
    (dateRange_nodup start (minDt e2 env.today)).sublist hsub
  have hperm :=
    (sortByDate_perm
      (cbFallbackLoop env src tgt (dateRange start (minDt e2 env.today)) cache 0).1).map
      (fun q => q.valuation_date)
  exact (hperm.nodup_iff).mpr hnd

/-- C6 (amended): a `/timeseries` response whose rates container is a list
routes `get_historical_rates` into the per-day fallback path, whose result
is sorted ascending by valuation date; it contains no two quotes with the
same date *provided* every process-cache entry is stored under its own
valuation date (entries written for a future-dated request violate this:
the cache key is computed before the clamp, the stored quote is dated
today). -/
theorem cb_list_response_fallback (env : CbEnv) (cache : CbCache) (src tgt : String)
    (start e_ : Dt) (h1 : ¬ dtLT e_ start) (h2 : ¬ dtLT env.today start) :
    cbGetHistoricalRates env cache src tgt start e_ (.ok .asList) =
      .ok (cbFallbackHistoricalRates env cache (pyUpper src) (pyUpper tgt) start
        (minDt e_ env.today)) ∧
    (cbFallbackHistoricalRates env cache (pyUpper src) (pyUpper tgt) start
        (minDt e_ env.today)).1.Pairwise
      (fun a b => dtLE a.valuation_date b.valuation_date) ∧
    (CacheConsistent cache →
      (ratesDates (cbFallbackHistoricalRates env cache (pyUpper src) (pyUpper tgt) start
        (minDt e_ env.today)).1).Nodup) := by
  refine ⟨?_, ?_, fun hcc => cbFallbackHistoricalRates_nodup hcc⟩
  · unfold cbGetHistoricalRates
    simp only []
    rw [if_neg h1, if_neg h2]
  · rw [cbFallbackHistoricalRates_eq]
    exact sortByDate_sorted _

/-- Counterexample to C6's no-duplicate-dates conjunct as stated: with a
process cache poisoned by an earlier future-dated request (key 2024-01-05,
stored quote dated 2024-01-04 — exactly what `get_exchange_rate` writes
when asked on 2024-01-04 for the then-future 2024-01-05), the list-shaped
timeseries response routes to the fallback, which returns two quotes both
dated 2024-01-04. -/
theorem cb_fallback_duplicate_dates_cex :
    histDatesOf (cbGetHistoricalRates
        ⟨⟨2024, 1, 10⟩, fun _ _ => .ok [("USD", 1)]⟩
        (fun x => if x = ⟨2024, 1, 5⟩
          then some ⟨"EUR", "USD", ⟨2024, 1, 4⟩, 2, "CurrencyBeacon"⟩ else none)
        "EUR" "USD" ⟨2024, 1, 4⟩ ⟨2024, 1, 5⟩ (.ok .asList)) =
      some [⟨2024, 1, 4⟩, ⟨2024, 1, 4⟩] ∧
    ¬ ([(⟨2024, 1, 4⟩ : Dt), ⟨2024, 1, 4⟩].Nodup) := by
  constructor
  · have hroute : cbGetHistoricalRates
        ⟨⟨2024, 1, 10⟩, fun _ _ => .ok [("USD", 1)]⟩
        (fun x => if x = ⟨2024, 1, 5⟩
          then some ⟨"EUR", "USD", ⟨2024, 1, 4⟩, 2, "CurrencyBeacon"⟩ else none)
        "EUR" "USD" ⟨2024, 1, 4⟩ ⟨2024, 1, 5⟩ (.ok .asList) =
        .ok (cbFallbackHistoricalRates
          ⟨⟨2024, 1, 10⟩, fun _ _ => .ok [("USD", 1)]⟩
          (fun x => if x = ⟨2024, 1, 5⟩
            then some ⟨"EUR", "USD", ⟨2024, 1, 4⟩, 2, "CurrencyBeacon"⟩ else none)
          (pyUpper "EUR") (pyUpper "USD") ⟨2024, 1, 4⟩
          (minDt ⟨2024, 1, 5⟩ ⟨2024, 1, 10⟩)) := by
      unfold cbGetHistoricalRates
      simp only []
      rw [if_neg (by decide), if_neg (by decide)]
    rw [hroute, cbFallbackHistoricalRates_eq]
    have hdays : dateRange ⟨2024, 1, 4⟩
        (minDt (minDt ⟨2024, 1, 5⟩ ⟨2024, 1, 10⟩) ⟨2024, 1, 10⟩) =
        [⟨2024, 1, 4⟩, ⟨2024, 1, 5⟩] := by decide
    rw [hdays]
    have hloop : (cbFallbackLoop ⟨⟨2024, 1, 10⟩, fun _ _ => .ok [("USD", 1)]⟩
        (pyUpper "EUR") (pyUpper "USD") [⟨2024, 1, 4⟩, ⟨2024, 1, 5⟩]
        (fun x => if x = ⟨2024, 1, 5⟩
          then some ⟨"EUR", "USD", ⟨2024, 1, 4⟩, 2, "CurrencyBeacon"⟩ else none) 0).1 =
        [⟨"EUR", "USD", ⟨2024, 1, 4⟩, 1, "CurrencyBeacon"⟩,
         ⟨"EUR", "USD", ⟨2024, 1, 4⟩, 2, "CurrencyBeacon"⟩] := rfl
    have hsort : sortByDate
        [⟨"EUR", "USD", ⟨2024, 1, 4⟩, 1, "CurrencyBeacon"⟩,
         ⟨"EUR", "USD", ⟨2024, 1, 4⟩, 2, "CurrencyBeacon"⟩] =
        [⟨"EUR", "USD", ⟨2024, 1, 4⟩, 1, "CurrencyBeacon"⟩,
         ⟨"EUR", "USD", ⟨2024, 1, 4⟩, 2, "CurrencyBeacon"⟩] := by
      unfold sortByDate
      exact List.mergeSort_of_sorted (by decide)
    rw [hloop, hsort]
    rfl
  · decide

/-- Witness for C6 with a clean (empty) cache: the list response routes to
the fallback, the result is sorted with no duplicate dates. -/
theorem cb_list_response_fallback_witness :
    cbGetHistoricalRates ⟨⟨2024, 1, 10⟩, fun _ _ => .ok [("USD", 1)]⟩ (fun _ => none)
        "EUR" "USD" ⟨2024, 1, 4⟩ ⟨2024, 1, 5⟩ (.ok .asList) =
      .ok (cbFallbackHistoricalRates ⟨⟨2024, 1, 10⟩, fun _ _ => .ok [("USD", 1)]⟩
        (fun _ => none) (pyUpper "EUR") (pyUpper "USD") ⟨2024, 1, 4⟩
        (minDt ⟨2024, 1, 5⟩ ⟨2024, 1, 10⟩)) ∧
    (cbFallbackHistoricalRates ⟨⟨2024, 1, 10⟩, fun _ _ => .ok [("USD", 1)]⟩
        (fun _ => none) (pyUpper "EUR") (pyUpper "USD") ⟨2024, 1, 4⟩
        (minDt ⟨2024, 1, 5⟩ ⟨2024, 1, 10⟩)).1.Pairwise
      (fun a b => dtLE a.valuation_date b.valuation_date) ∧
    (ratesDates (cbFallbackHistoricalRates ⟨⟨2024, 1, 10⟩, fun _ _ => .ok [("USD", 1)]⟩
        (fun _ => none) (pyUpper "EUR") (pyUpper "USD") ⟨2024, 1, 4⟩
        (minDt ⟨2024, 1, 5⟩ ⟨2024, 1, 10⟩)).1).Nodup :=
  ⟨(cb_list_response_fallback ⟨⟨2024, 1, 10⟩, fun _ _ => .ok [("USD", 1)]⟩ (fun _ => none)
      "EUR" "USD" ⟨2024, 1, 4⟩ ⟨2024, 1, 5⟩ (by decide) (by decide)).1,
   (cb_list_response_fallback ⟨⟨2024, 1, 10⟩, fun _ _ => .ok [("USD", 1)]⟩ (fun _ => none)
      "EUR" "USD" ⟨2024, 1, 4⟩ ⟨2024, 1, 5⟩ (by decide) (by decide)).2.1,
   (cb_list_response_fallback ⟨⟨2024, 1, 10⟩, fun _ _ => .ok [("USD", 1)]⟩ (fun _ => none)
      "EUR" "USD" ⟨2024, 1, 4⟩ ⟨2024, 1, 5⟩ (by decide) (by decide)).2.2
     (fun d r h => Option.noConfusion h)⟩
